import Mathlib

/-!
Shallow embedding of the `static_backend` canister
(`src/static_backend/src/lib.rs` and `src/static_backend/src/asset.rs`).

The canister serves build-time-embedded static assets through the
`ic_asset_certification` router.  Pure fragments of the Rust source are
translated directly; the router, certification tree and encoding
negotiator live in external crates and are modelled from the spec where a
claim needs their behaviour (each such definition carries a
`Modelled from the spec:` doc comment).
-/

namespace StaticBackend

/-- A byte buffer: each entry is one byte. -/
abbrev Bytes := List Nat

/-- Rust's `str::ends_with`, computed on the character list so that it
evaluates in the kernel. -/
def strEndsWith (s post : String) : Bool := post.data.isSuffixOf s.data

/-- Rust's `str::starts_with` (prefix test for fallback scopes), computed
on the character list so that it evaluates in the kernel. -/
def strIsPrefixOf (pre s : String) : Bool := pre.data.isPrefixOf s.data

/-- `HeaderField` from `ic_http_certification`: a (name, value) pair. -/
abbrev HeaderField := String × String

/-- An HTTP-shaped response as the claims observe it:
status code, headers, body bytes. -/
abbrev Response := Nat × List HeaderField × Bytes

/-- `ENABLE_TEMPLATING` constant, lib.rs line 22. -/
def ENABLE_TEMPLATING : Bool := true

/-- `UPDATE_INTERVAL_SECS` constant, lib.rs line 23: the repeating timer period. -/
def UPDATE_INTERVAL_SECS : Nat := 120

/-- `IMMUTABLE_ASSET_CACHE_CONTROL` constant, asset.rs line 18. -/
def IMMUTABLE_ASSET_CACHE_CONTROL : String := "public, max-age=31536000, immutable"

/-- The fixed security header set hard-coded at the head of
`get_asset_headers` (asset.rs lines 110-119), in source order. -/
def security_headers : List HeaderField :=
  [ ("strict-transport-security", "max-age=31536000; includeSubDomains"),
    ("x-frame-options", "DENY"),
    ("x-content-type-options", "nosniff"),
    ("content-security-policy", "default-src \x27self\x27; img-src \x27self\x27 data:; form-action \x27self\x27; object-src \x27none\x27; frame-ancestors \x27none\x27; upgrade-insecure-requests; block-all-mixed-content"),
    ("referrer-policy", "no-referrer"),
    ("permissions-policy", "accelerometer=(),ambient-light-sensor=(),autoplay=(),battery=(),camera=(),display-capture=(),document-domain=(),encrypted-media=(),fullscreen=(),gamepad=(),geolocation=(),gyroscope=(),layout-animations=(self),legacy-image-formats=(self),magnetometer=(),microphone=(),midi=(),oversized-images=(self),payment=(),picture-in-picture=(),publickey-credentials-get=(),speaker-selection=(),sync-xhr=(self),unoptimized-images=(self),unsized-media=(self),usb=(),screen-wake-lock=(),web-share=(),xr-spatial-tracking=()"),
    ("cross-origin-embedder-policy", "require-corp"),
    ("cross-origin-opener-policy", "same-origin") ]

/-- `get_asset_headers` (asset.rs lines 109-122): the fixed security
headers followed by the asset-specific `additional_headers`. -/
def get_asset_headers (additional_headers : List HeaderField) : List HeaderField :=
  security_headers ++ additional_headers

/-- `AssetEncoding` from `ic_asset_certification`, restricted to the
variants this program mentions. -/
inductive AssetEncoding
  | identity
  | gzip
  | brotli
deriving DecidableEq, Repr

/-- `AssetFallbackConfig` from `ic_asset_certification`: a scope prefix and
an optional status-code override. -/
structure AssetFallbackConfig where
  scope : String
  status_code : Option Nat
deriving DecidableEq, Repr

/-- `AssetConfig` from `ic_asset_certification`, the two variants used by
`certify_all_assets`. -/
inductive AssetConfig
  | File (path : String) (content_type : Option String) (headers : List HeaderField)
      (fallback_for : List AssetFallbackConfig) (aliased_by : List String)
      (encodings : List AssetEncoding)
  | Pattern (pattern : String) (content_type : Option String) (headers : List HeaderField)
      (encodings : List AssetEncoding)
deriving DecidableEq, Repr

/-- The headers field of an `AssetConfig`. -/
def AssetConfig.headers : AssetConfig → List HeaderField
  | .File _ _ hs _ _ _ => hs
  | .Pattern _ _ hs _ => hs

/-- The `encodings` vector of `certify_all_assets` (asset.rs lines 34-37):
Brotli and Gzip pre-encoding configurations. -/
def encodings : List AssetEncoding := [AssetEncoding.brotli, AssetEncoding.gzip]

/-- The `asset_configs` vector of `certify_all_assets` (asset.rs lines 39-83),
translated literally. -/
def asset_configs : List AssetConfig :=
  [ AssetConfig.File "index.html" (some "text/html")
      (get_asset_headers [("cache-control", "public, no-cache, no-store")])
      [] ["/"] encodings,
    AssetConfig.File "404.html" (some "text/html")
      (get_asset_headers [("cache-control", "public, no-cache, no-store")])
      [{ scope := "/", status_code := some 404 }] [] encodings,
    AssetConfig.Pattern "**/*.js" (some "text/javascript")
      (get_asset_headers [("cache-control", IMMUTABLE_ASSET_CACHE_CONTROL)])
      encodings,
    AssetConfig.Pattern "**/*.css" (some "text/css")
      (get_asset_headers [("cache-control", IMMUTABLE_ASSET_CACHE_CONTROL)])
      encodings ]

/-- A file of the build-time-embedded `ASSETS_DIR` (asset.rs line 17):
its path inside the directory and its embedded contents. -/
structure EmbeddedFile where
  path : String
  contents : Bytes
deriving DecidableEq, Repr

/-- The asset-collection loop of `certify_all_assets` (asset.rs lines 85-99):
walk the embedded directory; the file ending in `index.hbs` is special-cased
to the rendered template output (published under the name `index.html`) when
templating is enabled; every other file contributes its embedded bytes
unchanged.  `render` is the outcome of `serve_canister_info` — an `unwrap`
failure there traps, which the `Except.error` branch models. -/
def collect_assets : List EmbeddedFile → Except String Bytes →
    Except String (List (String × Bytes))
  | [], _ => Except.ok []
  | f :: fs, render =>
    match collect_assets fs render with
    | Except.error e => Except.error e
    | Except.ok rest =>
      if strEndsWith f.path "index.hbs" then
        if ENABLE_TEMPLATING then
          match render with
          | Except.error e => Except.error e
          | Except.ok b => Except.ok (("index.html", b) :: rest)
        else Except.ok (("index.html", f.contents) :: rest)
      else Except.ok ((f.path, f.contents) :: rest)

/-- The pure value of the collection loop when the render succeeds: every
file maps to its embedded (path, contents) pair except the templated
`index.hbs`, which is published as `index.html` with the rendered bytes. -/
def renderList (dir : List EmbeddedFile) (b : Bytes) : List (String × Bytes) :=
  dir.map (fun f =>
    if strEndsWith f.path "index.hbs" then ("index.html", b) else (f.path, f.contents))

/-! ## Spec-modelled router and negotiator

The `AssetRouter` / `HttpCertificationTree` behaviour lives in the external
`ic_asset_certification` crate, not under `src/`; the definitions below are
modelled from the spec (§4.1, §4.3, §4.4). -/

/-- Modelled from the spec: a concrete servable entry of the Asset Store —
canonical or alias path, status, response headers and body bytes
(spec §3 Asset / CertificationEntry).  The negotiated body is the same for
all encodings once decoded, so the model keys entries by path only. -/
structure CertAsset where
  path : String
  status : Nat
  headers : List HeaderField
  body : Bytes
deriving DecidableEq, Repr

/-- Modelled from the spec: a fallback-scope entry — a path prefix together
with the designated substitute response (spec §4.3 step 1, glossary
"Fallback scope"). -/
structure FallbackEntry where
  scope : String
  status : Nat
  headers : List HeaderField
  body : Bytes
deriving DecidableEq, Repr

/-- Look a path up in the embedded corpus (first match wins). -/
def lookupBytes (corpus : List (String × Bytes)) (p : String) : Option Bytes :=
  (corpus.find? (fun e => e.fst == p)).map (fun e => e.snd)

/-- Modelled from the spec: expansion of one `AssetConfig` against the file
corpus into concrete Asset Store entries (spec §4.3 step 1).  A File rule
produces its canonical path plus one entry per declared alias, all sharing
the same bytes; a Pattern rule produces one entry per glob-matching corpus
file.  Glob matching itself is the external crate's, kept abstract as `gm`. -/
def expandConfig (gm : String → String → Bool) (corpus : List (String × Bytes)) :
    AssetConfig → List CertAsset
  | .File path _ hs _ al _ =>
    match lookupBytes corpus path with
    | none => []
    | some b =>
      { path := path, status := 200, headers := hs, body := b } ::
        al.map (fun a => { path := a, status := 200, headers := hs, body := b })
  | .Pattern pat _ hs _ =>
    (corpus.filter (fun e => gm pat e.fst)).map
      (fun e => { path := e.fst, status := 200, headers := hs, body := e.snd })

/-- Modelled from the spec: expansion of a whole rule list. -/
def expandAll (gm : String → String → Bool) (corpus : List (String × Bytes))
    (cfgs : List AssetConfig) : List CertAsset :=
  cfgs.foldr (fun c acc => expandConfig gm corpus c ++ acc) []

/-- Modelled from the spec: the fallback entries declared by one config —
each `fallback_for` scope of a File rule becomes a designated substitute
response carrying that file's bytes and the declared status override
(spec §4.3 step 1). -/
def fallbackEntries (corpus : List (String × Bytes)) : AssetConfig → List FallbackEntry
  | .File path _ hs fb _ _ =>
    fb.foldr (fun f acc =>
      (match lookupBytes corpus path with
       | none => []
       | some b => [{ scope := f.scope, status := f.status_code.getD 200,
                      headers := hs, body := b }]) ++ acc) []
  | .Pattern _ _ _ _ => []

/-- Modelled from the spec: the fallback table of a whole rule list, in
declaration order. -/
def allFallbacks (corpus : List (String × Bytes)) (cfgs : List AssetConfig) :
    List FallbackEntry :=
  cfgs.foldr (fun c acc => fallbackEntries corpus c ++ acc) []

/-- Keep the fallback whose scope is more specific (strictly longer);
on a tie the earlier-declared one wins (spec §4.4 edge cases). -/
def pickMoreSpecific (b f : FallbackEntry) : FallbackEntry :=
  if f.scope.length > b.scope.length then f else b

/-- Modelled from the spec: resolve a path against the fallback table —
among the scopes that prefix-match the path, the most specific wins, ties
broken by declaration order (spec §4.4 step 2 and edge cases). -/
def bestFallback (fbs : List FallbackEntry) (p : String) : Option FallbackEntry :=
  match fbs.filter (fun f => strIsPrefixOf f.scope p) with
  | [] => none
  | f :: fs => some (fs.foldl pickMoreSpecific f)

/-- Modelled from the spec: the router's serve step (spec §4.4) — exact
(canonical or alias) entry first, otherwise the best matching fallback
scope's designated response, otherwise `NotCertified`. -/
def routerServe (assets : List CertAsset) (fbs : List FallbackEntry)
    (p : String) : Except String Response :=
  match assets.find? (fun a => a.path == p) with
  | some a => Except.ok (a.status, a.headers, a.body)
  | none =>
    match bestFallback fbs p with
    | some f => Except.ok (f.status, f.headers, f.body)
    | none => Except.error "NotCertified"

/-- Modelled from the spec: the Encoding Negotiator (spec §4.1) — prefer
Brotli, then Gzip, then Identity, restricted to the intersection of the
client's accepted encodings and the asset's available variants; if the
client accepts none of the available encodings, fall back to Identity when
present, else fail with `NoAcceptableEncoding`. -/
def select (accepted available : List AssetEncoding) : Except String AssetEncoding :=
  if AssetEncoding.brotli ∈ accepted ∧ AssetEncoding.brotli ∈ available then
    Except.ok AssetEncoding.brotli
  else if AssetEncoding.gzip ∈ accepted ∧ AssetEncoding.gzip ∈ available then
    Except.ok AssetEncoding.gzip
  else if AssetEncoding.identity ∈ accepted ∧ AssetEncoding.identity ∈ available then
    Except.ok AssetEncoding.identity
  else if AssetEncoding.identity ∈ available then
    Except.ok AssetEncoding.identity
  else
    Except.error "NoAcceptableEncoding"

/-! ## Canister state and entry points -/

/-- The certified state held by the thread-local `ASSET_ROUTER` /
`HTTP_TREE` pair plus the certified-data digest published through
`set_certified_data` (asset.rs lines 12-15 and 105). -/
structure CanisterState where
  assets : List CertAsset
  fallbacks : List FallbackEntry
  certified_data : Option Bytes
deriving DecidableEq, Repr

/-- The canister state before any certification pass: empty router, no
published digest (the spec's `Uninitialized`). -/
def emptyCanister : CanisterState :=
  { assets := [], fallbacks := [], certified_data := none }

/-- `serve_asset` (asset.rs lines 20-31): requires a platform data
certificate — `data_certificate().expect("No data certificate available")`
traps when absent — then returns the router's response, trapping with
"Failed to serve asset" on any router error.  Traps are `Except.error`. -/
def serve_asset (cert : Option Bytes) (router_result : Except String Response) :
    Except String Response :=
  match cert with
  | none => Except.error "No data certificate available"
  | some _ =>
    match router_result with
    | Except.ok response => Except.ok response
    | Except.error _ => Except.error "Failed to serve asset"

/-- `http_request` (lib.rs lines 58-62): `req.get_path()` is `expect`ed —
a request whose URL fails to parse traps with
"Failed to parse request path" — then the request is handed to
`serve_asset` against the current router state. -/
def http_request (s : CanisterState) (cert : Option Bytes)
    (parsed_path : Option String) : Except String Response :=
  match parsed_path with
  | none => Except.error "Failed to parse request path"
  | some p => serve_asset cert (routerServe s.assets s.fallbacks p)

/-- `certify_all_assets` (asset.rs lines 33-107) as a state transition:
collect the assets (rendering the templated one — a render failure traps),
run the external router's `certify_assets` (an error traps via
`ic_cdk::trap` before `set_certified_data` is reached), and only on full
success install the new router contents and publish the new root digest.
A trap rolls the whole message back, so both error branches leave the
state unchanged.  `root_hash` and `certify` stand for the external crate's
tree commitment and reconciliation. -/
def certify_pass
    (root_hash : List CertAsset → List FallbackEntry → Bytes)
    (certify : List (String × Bytes) → List AssetConfig →
      Except String (List CertAsset × List FallbackEntry))
    (dir : List EmbeddedFile) (render : Except String Bytes)
    (s : CanisterState) : CanisterState :=
  match collect_assets dir render with
  | Except.error _ => s
  | Except.ok assetList =>
    match certify assetList asset_configs with
    | Except.error _ => s
    | Except.ok (a, f) =>
      { assets := a, fallbacks := f, certified_data := some (root_hash a f) }

/-! ## Scheduler (lib.rs lines 33-56) -/

/-- The scheduler-visible state: how many certification passes have
completed and whether the repeating timer is armed. -/
structure SchedState where
  passes_done : Nat
  timer_armed : Bool
deriving DecidableEq, Repr

/-- The scheduler state at process start: no pass has run, no timer armed. -/
def initialSched : SchedState := { passes_done := 0, timer_armed := false }

/-- `certify_on_timer` (lib.rs lines 43-56): arms
`set_timer_interval(UPDATE_INTERVAL_SECS)` whose closure runs
`certify_all_assets`.  `set_timer_interval` schedules the FIRST execution
one full interval after arming: arming itself runs no certification pass. -/
def certify_on_timer (s : SchedState) : SchedState :=
  { s with timer_armed := true }

/-- `init` (lib.rs lines 33-36): the whole body is `certify_on_timer()`. -/
def init (s : SchedState) : SchedState := certify_on_timer s

/-- `post_upgrade` (lib.rs lines 38-41): the whole body is
`certify_on_timer()`. -/
def post_upgrade (s : SchedState) : SchedState := certify_on_timer s

/-- A tick of the armed repeating timer: the closure runs one
certification pass. -/
def timer_tick (s : SchedState) : SchedState :=
  if s.timer_armed then { s with passes_done := s.passes_done + 1 } else s

/-- `http_request` as observed by later state: the handler takes only an
immutable borrow of `ASSET_ROUTER` (`with_borrow`, asset.rs line 21), so
request handling returns the response together with the untouched state. -/
def handle_request (s : CanisterState) (cert : Option Bytes)
    (parsed_path : Option String) : Except String Response × CanisterState :=
  (http_request s cert parsed_path, s)

/-! ## Helper lemmas -/

lemma collect_assets_ok (dir : List EmbeddedFile) (b : Bytes) :
    collect_assets dir (Except.ok b) = Except.ok (renderList dir b) := by
  induction dir with
  | nil => rfl
  | cons f fs ih =>
    by_cases h : strEndsWith f.path "index.hbs"
    · simp [collect_assets, ih, renderList, h, ENABLE_TEMPLATING]
    · simp [collect_assets, ih, renderList, h]

lemma renderList_filter_eq (dir : List EmbeddedFile) (b1 b2 : Bytes) :
    (renderList dir b1).filter (fun e => !(e.fst == "index.html")) =
      (renderList dir b2).filter (fun e => !(e.fst == "index.html")) := by
  induction dir with
  | nil => rfl
  | cons f fs ih =>
    by_cases h : strEndsWith f.path "index.hbs"
    · simp [renderList, h, List.filter] at ih ⊢
      exact ih
    · simp only [renderList, List.map_cons, h, if_false, Bool.false_eq_true, ite_false,
        List.filter_cons]
      simp only [renderList] at ih
      rw [ih]

lemma renderList_mem_static (dir : List EmbeddedFile) (b : Bytes) :
    ∀ e ∈ renderList dir b, e.fst ≠ "index.html" →
      ∃ f ∈ dir, f.path = e.fst ∧ f.contents = e.snd := by
  induction dir with
  | nil => intro e he; simp [renderList] at he
  | cons f fs ih =>
    intro e he hne
    by_cases h : strEndsWith f.path "index.hbs"
    · simp only [renderList, List.map_cons, h, if_true, List.mem_cons] at he
      rcases he with rfl | he
      · exact absurd rfl hne
      · obtain ⟨g, hg, hgp, hgc⟩ := ih e he hne
        exact ⟨g, List.mem_cons_of_mem _ hg, hgp, hgc⟩
    · simp only [renderList, List.map_cons, h, Bool.false_eq_true, ite_false,
        List.mem_cons] at he
      rcases he with rfl | he
      · exact ⟨f, List.mem_cons_self _ _, rfl, rfl⟩
      · obtain ⟨g, hg, hgp, hgc⟩ := ih e he hne
        exact ⟨g, List.mem_cons_of_mem _ hg, hgp, hgc⟩

lemma pick_cases (b f : FallbackEntry) :
    pickMoreSpecific b f = b ∨ pickMoreSpecific b f = f := by
  unfold pickMoreSpecific; split
  · exact Or.inr rfl
  · exact Or.inl rfl

lemma pick_ge_left (b f : FallbackEntry) :
    b.scope.length ≤ (pickMoreSpecific b f).scope.length := by
  unfold pickMoreSpecific; split <;> omega

lemma pick_ge_right (b f : FallbackEntry) :
    f.scope.length ≤ (pickMoreSpecific b f).scope.length := by
  unfold pickMoreSpecific; split <;> omega

lemma foldl_pick_mem (fs : List FallbackEntry) (f : FallbackEntry) :
    List.foldl pickMoreSpecific f fs ∈ f :: fs := by
  induction fs generalizing f with
  | nil => exact List.mem_singleton.mpr rfl
  | cons g gs ih =>
    have h := ih (pickMoreSpecific f g)
    simp only [List.foldl_cons]
    rcases List.mem_cons.mp h with h1 | h1
    · rcases pick_cases f g with h2 | h2
      · rw [h1, h2]; exact List.mem_cons_self _ _
      · rw [h1, h2]; exact List.mem_cons_of_mem _ (List.mem_cons_self _ _)
    · exact List.mem_cons_of_mem _ (List.mem_cons_of_mem _ h1)

lemma foldl_pick_ge_init (fs : List FallbackEntry) (f : FallbackEntry) :
    f.scope.length ≤ (List.foldl pickMoreSpecific f fs).scope.length := by
  induction fs generalizing f with
  | nil => exact le_refl _
  | cons g gs ih =>
    simp only [List.foldl_cons]
    exact le_trans (pick_ge_left f g) (ih (pickMoreSpecific f g))

lemma foldl_pick_maxlen (fs : List FallbackEntry) :
    ∀ (f g : FallbackEntry), g ∈ f :: fs →
      g.scope.length ≤ (List.foldl pickMoreSpecific f fs).scope.length := by
  induction fs with
  | nil =>
    intro f g hg
    rw [List.mem_singleton.mp hg]
    exact le_refl _
  | cons f2 fs2 ih =>
    intro f g hg
    simp only [List.foldl_cons]
    rcases List.mem_cons.mp hg with h | h2
    · rw [h]
      exact le_trans (pick_ge_left f f2) (foldl_pick_ge_init fs2 _)
    · rcases List.mem_cons.mp h2 with h | h3
      · rw [h]
        exact le_trans (pick_ge_right f f2) (foldl_pick_ge_init fs2 _)
      · exact ih (pickMoreSpecific f f2) g (List.mem_cons_of_mem _ h3)

lemma bestFallback_mem (fbs : List FallbackEntry) (p : String) (f : FallbackEntry)
    (h : bestFallback fbs p = some f) :
    f ∈ fbs ∧ strIsPrefixOf f.scope p = true := by
  unfold bestFallback at h
  cases hm : fbs.filter (fun g => strIsPrefixOf g.scope p) with
  | nil => rw [hm] at h; cases h
  | cons a as =>
    rw [hm] at h
    have hf : List.foldl pickMoreSpecific a as = f := Option.some.inj h
    have hmem : f ∈ a :: as := hf ▸ foldl_pick_mem as a
    have hfil : f ∈ fbs.filter (fun g => strIsPrefixOf g.scope p) := hm ▸ hmem
    exact List.mem_filter.mp hfil

lemma bestFallback_most_specific (fbs : List FallbackEntry) (p : String)
    (f : FallbackEntry) (h : bestFallback fbs p = some f) :
    ∀ g ∈ fbs, strIsPrefixOf g.scope p = true → g.scope.length ≤ f.scope.length := by
  intro g hg hpre
  unfold bestFallback at h
  cases hm : fbs.filter (fun x => strIsPrefixOf x.scope p) with
  | nil => rw [hm] at h; cases h
  | cons a as =>
    rw [hm] at h
    have hf : List.foldl pickMoreSpecific a as = f := Option.some.inj h
    have hgmem : g ∈ a :: as := hm ▸ List.mem_filter.mpr ⟨hg, hpre⟩
    calc g.scope.length ≤ (List.foldl pickMoreSpecific a as).scope.length :=
          foldl_pick_maxlen as a g hgmem
      _ = f.scope.length := by rw [hf]

lemma expandConfig_headers (gm : String → String → Bool)
    (corpus : List (String × Bytes)) (c : AssetConfig) (a : CertAsset)
    (ha : a ∈ expandConfig gm corpus c) : a.headers = c.headers := by
  cases c with
  | File path ct hs fb al enc =>
    simp only [expandConfig] at ha
    cases hl : lookupBytes corpus path with
    | none => rw [hl] at ha; cases ha
    | some b =>
      rw [hl] at ha
      rcases List.mem_cons.mp ha with h | ha2
      · rw [h]; rfl
      · obtain ⟨x, _, hx⟩ := List.mem_map.mp ha2
        rw [← hx]; rfl
  | Pattern pat ct hs enc =>
    simp only [expandConfig] at ha
    obtain ⟨x, _, hx⟩ := List.mem_map.mp ha
    rw [← hx]; rfl

lemma expandAll_headers (gm : String → String → Bool)
    (corpus : List (String × Bytes)) (cfgs : List AssetConfig) (a : CertAsset)
    (ha : a ∈ expandAll gm corpus cfgs) :
    ∃ c ∈ cfgs, a.headers = c.headers := by
  induction cfgs with
  | nil => cases ha
  | cons c cs ih =>
    rcases List.mem_append.mp ha with h | h
    · exact ⟨c, List.mem_cons_self _ _, expandConfig_headers gm corpus c a h⟩
    · obtain ⟨c2, hc2, he⟩ := ih h
      exact ⟨c2, List.mem_cons_of_mem _ hc2, he⟩

lemma fallback_foldr_headers (corpus : List (String × Bytes)) (path : String)
    (hs : List HeaderField) (fb : List AssetFallbackConfig) (f : FallbackEntry)
    (hf : f ∈ fb.foldr (fun fc acc =>
      (match lookupBytes corpus path with
       | none => []
       | some b => [{ scope := fc.scope, status := fc.status_code.getD 200,
                      headers := hs, body := b }]) ++ acc) []) :
    f.headers = hs := by
  induction fb with
  | nil => cases hf
  | cons fc fcs ih =>
    simp only [List.foldr_cons] at hf
    rcases List.mem_append.mp hf with h | h
    · cases hl : lookupBytes corpus path with
      | none => rw [hl] at h; cases h
      | some b =>
        rw [hl] at h
        rw [List.mem_singleton.mp h]
    · exact ih h

lemma fallbackEntries_headers (corpus : List (String × Bytes)) (c : AssetConfig)
    (f : FallbackEntry) (hf : f ∈ fallbackEntries corpus c) :
    f.headers = c.headers := by
  cases c with
  | File path ct hs fb al enc =>
    exact fallback_foldr_headers corpus path hs fb f hf
  | Pattern pat ct hs enc => exact absurd hf (List.not_mem_nil f)

lemma allFallbacks_headers (corpus : List (String × Bytes)) (cfgs : List AssetConfig)
    (f : FallbackEntry) (hf : f ∈ allFallbacks corpus cfgs) :
    ∃ c ∈ cfgs, f.headers = c.headers := by
  induction cfgs with
  | nil => cases hf
  | cons c cs ih =>
    rcases List.mem_append.mp hf with h | h
    · exact ⟨c, List.mem_cons_self _ _, fallbackEntries_headers corpus c f h⟩
    · obtain ⟨c2, hc2, he⟩ := ih h
      exact ⟨c2, List.mem_cons_of_mem _ hc2, he⟩

/-! ## Claim theorems -/

/-- C1: the claim says one full certification pass runs at `init` /
`post_upgrade` before any request is answered.  The code's
`certify_on_timer` only arms `set_timer_interval(120 s)` — the first pass
runs at the first tick, not at init — so directly after `init` no pass has
completed, the canister is still Uninitialized, and a request arriving
before the first tick traps ("Failed to serve asset") instead of being
answered after a completed pass.  Only a later `timer_tick` performs the
first pass. -/
theorem c1_no_certification_pass_at_init :
    (init initialSched).passes_done = 0 ∧
    (post_upgrade initialSched).passes_done = 0 ∧
    http_request emptyCanister (some []) (some "/") =
      Except.error "Failed to serve asset" ∧
    (timer_tick (init initialSched)).passes_done = 1 :=
  ⟨rfl, rfl, rfl, rfl⟩

/-- C2: a certification pass publishes a new root digest if and only if
the whole pass succeeds: a render failure or a `certify_assets` failure
traps before `set_certified_data` is reached, leaving the previous router
contents and published digest unchanged; on success the state carries the
new router contents and the freshly computed root digest. -/
theorem c2_publish_iff_pass_succeeds
    (root_hash : List CertAsset → List FallbackEntry → Bytes)
    (certify : List (String × Bytes) → List AssetConfig →
      Except String (List CertAsset × List FallbackEntry))
    (dir : List EmbeddedFile) (render : Except String Bytes)
    (s : CanisterState) :
    (∀ e, collect_assets dir render = Except.error e →
      certify_pass root_hash certify dir render s = s) ∧
    (∀ al e, collect_assets dir render = Except.ok al →
      certify al asset_configs = Except.error e →
      certify_pass root_hash certify dir render s = s) ∧
    (∀ al a f, collect_assets dir render = Except.ok al →
      certify al asset_configs = Except.ok (a, f) →
      certify_pass root_hash certify dir render s =
        { assets := a, fallbacks := f, certified_data := some (root_hash a f) }) := by
  refine ⟨?_, ?_, ?_⟩
  · intro e he
    simp [certify_pass, he]
  · intro al e h1 h2
    simp [certify_pass, h1, h2]
  · intro al a f h1 h2
    simp [certify_pass, h1, h2]

/-- Witness for C2: a concrete successful pass publishes the new digest. -/
theorem c2_publish_witness :
    certify_pass (fun _ _ => [0]) (fun _ _ => Except.ok ([], [])) []
        (Except.ok []) emptyCanister =
      { assets := [], fallbacks := [], certified_data := some [0] } :=
  (c2_publish_iff_pass_succeeds (fun _ _ => [0]) (fun _ _ => Except.ok ([], []))
    [] (Except.ok []) emptyCanister).2.2 [] [] [] rfl rfl

/-- C3: every asset that can be served carries the fixed hard-coded
security header set in addition to its asset-specific headers: each of the
four asset configurations embeds `security_headers` via
`get_asset_headers`, and every response the router can return — exact,
alias, or fallback — uses the headers of one of those configurations. -/
theorem c3_security_headers_always_attached :
    (∀ c ∈ asset_configs, ∀ h ∈ security_headers, h ∈ c.headers) ∧
    (∀ gm corpus p st hs body,
      routerServe (expandAll gm corpus asset_configs)
          (allFallbacks corpus asset_configs) p = Except.ok (st, hs, body) →
      ∀ h ∈ security_headers, h ∈ hs) := by
  have hcfg : ∀ c ∈ asset_configs, ∀ h ∈ security_headers, h ∈ c.headers := by
    intro c hc h hh
    simp only [asset_configs, List.mem_cons, List.not_mem_nil, or_false] at hc
    rcases hc with rfl | rfl | rfl | rfl <;> exact List.mem_append_left _ hh
  refine ⟨hcfg, ?_⟩
  intro gm corpus p st hs body hserve h hh
  unfold routerServe at hserve
  cases hf : (expandAll gm corpus asset_configs).find? (fun a => a.path == p) with
  | some a =>
    rw [hf] at hserve
    have hmem : a ∈ expandAll gm corpus asset_configs := List.mem_of_find?_eq_some hf
    obtain ⟨c, hc, he⟩ := expandAll_headers gm corpus asset_configs a hmem
    have hinj := Except.ok.inj hserve
    simp only [Prod.mk.injEq] at hinj
    rw [← hinj.2.1, he]
    exact hcfg c hc h hh
  | none =>
    rw [hf] at hserve
    cases hb : bestFallback (allFallbacks corpus asset_configs) p with
    | none =>
      rw [hb] at hserve
      exact absurd hserve (by simp)
    | some fbe =>
      rw [hb] at hserve
      have hmem := (bestFallback_mem _ p fbe hb).1
      obtain ⟨c, hc, he⟩ := allFallbacks_headers corpus asset_configs fbe hmem
      have hinj := Except.ok.inj hserve
      simp only [Prod.mk.injEq] at hinj
      rw [← hinj.2.1, he]
      exact hcfg c hc h hh

/-- Witness for C3: the `x-frame-options: DENY` header is attached to the
`index.html` configuration. -/
theorem c3_witness :
    (("x-frame-options" : String), ("DENY" : String)) ∈
      (AssetConfig.File "index.html" (some "text/html")
        (get_asset_headers [("cache-control", "public, no-cache, no-store")])
        [] ["/"] encodings).headers :=
  c3_security_headers_always_attached.1 _ (List.Mem.head _) _
    (List.Mem.tail _ (List.Mem.head _))

/-- C4: a request whose path matches no exact certified asset and lies
under the single declared fallback scope "/" is answered with the content
of `404.html` and status 404, and in general `bestFallback` resolves to
the most specific matching scope. -/
theorem c4_fallback_not_found
    (gm : String → String → Bool) (corpus : List (String × Bytes)) (b : Bytes)
    (p : String)
    (h404 : lookupBytes corpus "404.html" = some b)
    (hmiss : (expandAll gm corpus asset_configs).find? (fun a => a.path == p) = none)
    (hcov : strIsPrefixOf "/" p = true) :
    routerServe (expandAll gm corpus asset_configs)
        (allFallbacks corpus asset_configs) p =
      Except.ok (404, get_asset_headers
        [("cache-control", "public, no-cache, no-store")], b) ∧
    (∀ fbs f, bestFallback fbs p = some f →
      ∀ g ∈ fbs, strIsPrefixOf g.scope p = true →
        g.scope.length ≤ f.scope.length) := by
  constructor
  · have hfb : allFallbacks corpus asset_configs =
        [{ scope := "/", status := 404,
           headers := get_asset_headers
             [("cache-control", "public, no-cache, no-store")],
           body := b }] := by
      simp [allFallbacks, fallbackEntries, asset_configs, h404]
    unfold routerServe
    rw [hmiss, hfb]
    unfold bestFallback
    simp [hcov]
  · intro fbs f hbf g hg hp
    exact bestFallback_most_specific fbs p f hbf g hg hp

/-- Witness for C4: with a corpus holding `404.html`, the uncertified path
"/nope" is served the 404 page with status 404. -/
theorem c4_witness :
    routerServe (expandAll (fun _ _ => false) [("404.html", [9])] asset_configs)
        (allFallbacks [("404.html", [9])] asset_configs) "/nope" =
      Except.ok (404, get_asset_headers
        [("cache-control", "public, no-cache, no-store")], [9]) :=
  (c4_fallback_not_found (fun _ _ => false) [("404.html", [9])] [9] "/nope"
    (by decide) (by decide) (by decide)).1

/-- C5: serving the canonical path `index.html` and serving its declared
alias "/" yield the same certified response, in particular byte-identical
bodies. -/
theorem c5_alias_equivalence
    (gm : String → String → Bool) (corpus : List (String × Bytes)) (b : Bytes)
    (h : lookupBytes corpus "index.html" = some b) :
    routerServe (expandAll gm corpus asset_configs)
        (allFallbacks corpus asset_configs) "index.html" =
      Except.ok (200, get_asset_headers
        [("cache-control", "public, no-cache, no-store")], b) ∧
    routerServe (expandAll gm corpus asset_configs)
        (allFallbacks corpus asset_configs) "/" =
      Except.ok (200, get_asset_headers
        [("cache-control", "public, no-cache, no-store")], b) := by
  have hexp : expandAll gm corpus asset_configs =
      ({ path := "index.html", status := 200,
         headers := get_asset_headers
           [("cache-control", "public, no-cache, no-store")], body := b } : CertAsset) ::
      { path := "/", status := 200,
        headers := get_asset_headers
          [("cache-control", "public, no-cache, no-store")], body := b } ::
      expandAll gm corpus (asset_configs.drop 1) := by
    show expandConfig gm corpus _ ++ expandAll gm corpus (asset_configs.drop 1) = _
    simp [expandConfig, h]
  have e1 : (("index.html" : String) == "index.html") = true := by decide
  have e2 : (("index.html" : String) == "/") = false := by decide
  have e3 : (("/" : String) == "/") = true := by decide
  constructor
  · unfold routerServe
    rw [hexp]
    simp [List.find?, e1]
  · unfold routerServe
    rw [hexp]
    simp [List.find?, e2, e3]

/-- Witness for C5: with a concrete corpus, the alias "/" serves exactly
the `index.html` bytes. -/
theorem c5_witness :
    routerServe (expandAll (fun _ _ => false) [("index.html", [5])] asset_configs)
        (allFallbacks [("index.html", [5])] asset_configs) "/" =
      Except.ok (200, get_asset_headers
        [("cache-control", "public, no-cache, no-store")], [5]) :=
  (c5_alias_equivalence (fun _ _ => false) [("index.html", [5])] [5] (by decide)).2

/-- C7: a malformed request path is answered with the designated
not-found fallback when the path is covered by a fallback scope, and with
an explicit error otherwise: an unparseable URL traps with
"Failed to parse request path"; a parsed path with no exact asset gets
the best-matching fallback when one scope covers it, and a trap
("Failed to serve asset") when none does; and in this program every
fallback entry is the 404 not-found page. -/
theorem c7_malformed_path_behavior (s : CanisterState) (c : Bytes)
    (parsed : Option String) :
    (parsed = none →
      http_request s (some c) parsed = Except.error "Failed to parse request path") ∧
    (∀ p, parsed = some p → s.assets.find? (fun a => a.path == p) = none →
      ((∃ f ∈ s.fallbacks, strIsPrefixOf f.scope p = true) →
        ∃ fb, bestFallback s.fallbacks p = some fb ∧
          http_request s (some c) parsed =
            Except.ok (fb.status, fb.headers, fb.body)) ∧
      ((∀ f ∈ s.fallbacks, strIsPrefixOf f.scope p = false) →
        http_request s (some c) parsed = Except.error "Failed to serve asset")) ∧
    (∀ corpus f, f ∈ allFallbacks corpus asset_configs → f.status = 404) := by
  refine ⟨?_, ?_, ?_⟩
  · intro hnone
    rw [hnone]
    rfl
  · intro p hp hmiss
    subst hp
    constructor
    · rintro ⟨f, hf, hpre⟩
      cases hm : s.fallbacks.filter (fun g => strIsPrefixOf g.scope p) with
      | nil =>
        exfalso
        have : f ∈ s.fallbacks.filter (fun g => strIsPrefixOf g.scope p) :=
          List.mem_filter.mpr ⟨hf, hpre⟩
        rw [hm] at this
        cases this
      | cons a as =>
        refine ⟨as.foldl pickMoreSpecific a, ?_, ?_⟩
        · unfold bestFallback
          rw [hm]
        · show serve_asset (some c) (routerServe s.assets s.fallbacks p) = _
          unfold routerServe
          rw [hmiss]
          unfold bestFallback
          rw [hm]
          rfl
    · intro hall
      have hm : s.fallbacks.filter (fun g => strIsPrefixOf g.scope p) = [] := by
        rw [List.filter_eq_nil_iff]
        intro a ha
        rw [hall a ha]
        simp
      show serve_asset (some c) (routerServe s.assets s.fallbacks p) = _
      unfold routerServe
      rw [hmiss]
      unfold bestFallback
      rw [hm]
      rfl
  · intro corpus f hf
    cases hl : lookupBytes corpus "404.html" with
    | none =>
      simp [allFallbacks, fallbackEntries, asset_configs, hl] at hf
    | some b =>
      simp [allFallbacks, fallbackEntries, asset_configs, hl] at hf
      rw [hf]

/-- Witness for C7: an unparseable request URL traps with the explicit
parse error. -/
theorem c7_witness :
    http_request emptyCanister (some []) none =
      Except.error "Failed to parse request path" :=
  (c7_malformed_path_behavior emptyCanister [] none).1 rfl

/-- C6: encoding negotiation prefers Brotli, then Gzip, then Identity,
restricted to the intersection of accepted and available encodings; a
request accepting br and gzip against {Identity, Gzip} variants gets Gzip,
a request accepting nothing gets Identity, and when the client accepts
none of the available encodings the result is Identity when present, else
`NoAcceptableEncoding`. -/
theorem c6_encoding_negotiation :
    select [AssetEncoding.brotli, AssetEncoding.gzip]
        [AssetEncoding.identity, AssetEncoding.gzip] =
      Except.ok AssetEncoding.gzip ∧
    select [] [AssetEncoding.identity, AssetEncoding.gzip] =
      Except.ok AssetEncoding.identity ∧
    (∀ acc avail, AssetEncoding.brotli ∈ acc → AssetEncoding.brotli ∈ avail →
      select acc avail = Except.ok AssetEncoding.brotli) ∧
    (∀ acc avail, ¬(AssetEncoding.brotli ∈ acc ∧ AssetEncoding.brotli ∈ avail) →
      AssetEncoding.gzip ∈ acc → AssetEncoding.gzip ∈ avail →
      select acc avail = Except.ok AssetEncoding.gzip) ∧
    (∀ acc avail, (∀ e ∈ avail, e ∉ acc) → AssetEncoding.identity ∈ avail →
      select acc avail = Except.ok AssetEncoding.identity) ∧
    (∀ acc avail, (∀ e ∈ avail, e ∉ acc) → AssetEncoding.identity ∉ avail →
      select acc avail = Except.error "NoAcceptableEncoding") := by
  refine ⟨rfl, rfl, ?_, ?_, ?_, ?_⟩
  · intro acc avail ha hb
    unfold select
    rw [if_pos ⟨ha, hb⟩]
  · intro acc avail hn ha hb
    unfold select
    rw [if_neg hn, if_pos ⟨ha, hb⟩]
  · intro acc avail hnone hid
    have h1 : ¬(AssetEncoding.brotli ∈ acc ∧ AssetEncoding.brotli ∈ avail) :=
      fun h => hnone _ h.2 h.1
    have h2 : ¬(AssetEncoding.gzip ∈ acc ∧ AssetEncoding.gzip ∈ avail) :=
      fun h => hnone _ h.2 h.1
    have h3 : ¬(AssetEncoding.identity ∈ acc ∧ AssetEncoding.identity ∈ avail) :=
      fun h => hnone _ h.2 h.1
    unfold select
    rw [if_neg h1, if_neg h2, if_neg h3, if_pos hid]
  · intro acc avail hnone hid
    have h1 : ¬(AssetEncoding.brotli ∈ acc ∧ AssetEncoding.brotli ∈ avail) :=
      fun h => hnone _ h.2 h.1
    have h2 : ¬(AssetEncoding.gzip ∈ acc ∧ AssetEncoding.gzip ∈ avail) :=
      fun h => hnone _ h.2 h.1
    have h3 : ¬(AssetEncoding.identity ∈ acc ∧ AssetEncoding.identity ∈ avail) :=
      fun h => hnone _ h.2 h.1
    unfold select
    rw [if_neg h1, if_neg h2, if_neg h3, if_neg hid]

/-- Witness for C6: a client accepting only Brotli against a
Brotli-capable asset receives Brotli. -/
theorem c6_witness :
    select [AssetEncoding.brotli] [AssetEncoding.brotli] =
      Except.ok AssetEncoding.brotli :=
  c6_encoding_negotiation.2.2.1 [AssetEncoding.brotli] [AssetEncoding.brotli]
    (List.mem_singleton.mpr rfl) (List.mem_singleton.mpr rfl)

/-- C8: across any two certification passes (two renders of the dynamic
template), every collected asset other than the dynamic `index.html`
entry is identical between the passes, and its bytes are exactly the
build-time-embedded file contents. -/
theorem c8_static_assets_stable (dir : List EmbeddedFile) (b1 b2 : Bytes)
    (l1 l2 : List (String × Bytes))
    (h1 : collect_assets dir (Except.ok b1) = Except.ok l1)
    (h2 : collect_assets dir (Except.ok b2) = Except.ok l2) :
    l1.filter (fun e => !(e.fst == "index.html")) =
      l2.filter (fun e => !(e.fst == "index.html")) ∧
    (∀ e ∈ l1, e.fst ≠ "index.html" →
      ∃ f ∈ dir, f.path = e.fst ∧ f.contents = e.snd) := by
  rw [collect_assets_ok dir b1] at h1
  rw [collect_assets_ok dir b2] at h2
  have e1 : l1 = renderList dir b1 := (Except.ok.inj h1).symm
  have e2 : l2 = renderList dir b2 := (Except.ok.inj h2).symm
  subst e1; subst e2
  exact ⟨renderList_filter_eq dir b1 b2, renderList_mem_static dir b1⟩

/-- Witness for C8: two passes over a two-file directory with different
rendered bytes agree on the static `app.js` entry. -/
theorem c8_witness :
    List.filter (fun e => !(e.fst == "index.html"))
        [(("app.js" : String), ([1] : Bytes)), ("index.html", [7])] =
      List.filter (fun e => !(e.fst == "index.html"))
        [(("app.js" : String), ([1] : Bytes)), ("index.html", [9])] :=
  (c8_static_assets_stable [⟨"app.js", [1]⟩, ⟨"index.hbs", [2]⟩] [7] [9]
    [("app.js", [1]), ("index.html", [7])] [("app.js", [1]), ("index.html", [9])]
    rfl rfl).1

/-- C9: request handling never mutates the router, tree, or published
digest: `serve_asset` takes only an immutable borrow, so the state after
handling any request equals the state before, and a later certification
pass starting from it behaves exactly as if the request had not happened. -/
theorem c9_serve_does_not_mutate_state :
    ∀ (s : CanisterState) (cert : Option Bytes) (p : Option String),
      (handle_request s cert p).2 = s ∧
      (∀ root_hash certify dir render,
        certify_pass root_hash certify dir render (handle_request s cert p).2 =
          certify_pass root_hash certify dir render s) :=
  fun _ _ _ => ⟨rfl, fun _ _ _ _ => rfl⟩

/-- C10: `serve_asset` never returns a response without a platform data
certificate — with no certificate it traps with
"No data certificate available", a router failure traps with
"Failed to serve asset", and any successfully returned response implies a
certificate was present and the router succeeded. -/
theorem c10_serve_asset_requires_certificate :
    (∀ rr, serve_asset none rr = Except.error "No data certificate available") ∧
    (∀ c e, serve_asset (some c) (Except.error e) =
      Except.error "Failed to serve asset") ∧
    (∀ c r, serve_asset (some c) (Except.ok r) = Except.ok r) ∧
    (∀ cert rr r, serve_asset cert rr = Except.ok r →
      ∃ c, cert = some c ∧ rr = Except.ok r) := by
  refine ⟨fun _ => rfl, fun _ _ => rfl, fun _ _ => rfl, ?_⟩
  intro cert rr r h
  cases cert with
  | none => exact absurd h (by simp [serve_asset])
  | some c =>
    cases rr with
    | error e => exact absurd h (by simp [serve_asset])
    | ok r2 => exact ⟨c, rfl, h⟩

/-- Witness for C10: a concrete served response implies the certificate
was present. -/
theorem c10_witness :
    ∃ c, (some ([] : Bytes)) = some c ∧
      (Except.ok ((200, [], []) : Response) : Except String Response) =
        Except.ok ((200, [], []) : Response) :=
  c10_serve_asset_requires_certificate.2.2.2 (some [])
    (Except.ok ((200, [], []) : Response)) ((200, [], []) : Response) rfl

end StaticBackend
